import Mathlib

/-!
Verification development for the retrieval-and-streaming chatbot backend.

Python strings are modelled as `List Char` (Python `str` is a sequence of
code points).  UTF-8 byte length is `Char.utf8Size` summed over the list,
matching `len(s.encode('utf-8'))`.  Each definition below embeds one Python
function of the repository; the source file and function are named in the
doc comment.
-/

namespace RagSpec

/-- Code points of a string literal, used to write `List Char` constants. -/
def str (s : String) : List Char := s.data

/-- Python `str.strip()` whitespace class (ASCII part): space, tab, newline,
carriage return, vertical tab, form feed. -/
def isPySpace (c : Char) : Bool :=
  c = ' ' || c = '\t' || c = '\n' || c = '\r' || c = '\x0b' || c = '\x0c'

/-- Python `s.strip()`: drop leading and trailing whitespace. -/
def pyStrip (s : List Char) : List Char :=
  ((s.dropWhile isPySpace).reverse.dropWhile isPySpace).reverse

/-- Python `len(s.encode('utf-8'))`: UTF-8 byte length of a Python string. -/
def utf8Length (s : List Char) : Nat :=
  (s.map Char.utf8Size).sum

/-- Helper for `s.split('\n\n')`: scan left to right, break at each
non-overlapping occurrence of two consecutive newlines. -/
def splitParAux : List Char → List Char → List (List Char)
  | [], acc => [acc.reverse]
  | '\n' :: '\n' :: rest, acc => acc.reverse :: splitParAux rest []
  | c :: rest, acc => splitParAux rest (c :: acc)

/-- Python `text.split('\n\n')` (paragraph split used by both chunkers). -/
def splitPar (s : List Char) : List (List Char) := splitParAux s []

/-- Helper for `s.split('. ')`. -/
def splitDotSpaceAux : List Char → List Char → List (List Char)
  | [], acc => [acc.reverse]
  | '.' :: ' ' :: rest, acc => acc.reverse :: splitDotSpaceAux rest []
  | c :: rest, acc => splitDotSpaceAux rest (c :: acc)

/-- Python `paragraph.split('. ')` (sentence split used by
`JSONLProcessor.chunk_large_text`). -/
def splitDotSpace (s : List Char) : List (List Char) := splitDotSpaceAux s []

/-- Helper for `s.split('\n')`. -/
def splitNLAux : List Char → List Char → List (List Char)
  | [], acc => [acc.reverse]
  | '\n' :: rest, acc => acc.reverse :: splitNLAux rest []
  | c :: rest, acc => splitNLAux rest (c :: acc)

/-- Python `content.split('\n')` (line split used by
`JSONLProcessor.parse_jsonl_file`). -/
def splitNL (s : List Char) : List (List Char) := splitNLAux s []

/-- One accumulate-or-flush step of the sentence loop of
`JSONLProcessor.chunk_large_text` (src/app/chatbot/jsonl_handler.py,
lines 200-209).  State is `(chunks, current_chunk)`. -/
def jsonlSentenceStep (maxB : Nat) (st : List (List Char) × List Char)
    (s : List Char) : List (List Char) × List Char :=
  if utf8Length (st.2 ++ s) > maxB then
    if st.2 ≠ [] then (st.1 ++ [pyStrip st.2], s)
    else (st.1 ++ [s.take maxB], st.2)
  else
    if st.2 ≠ [] then (st.1, st.2 ++ str ". " ++ s) else (st.1, s)

/-- One step of the paragraph loop of `JSONLProcessor.chunk_large_text`
(src/app/chatbot/jsonl_handler.py, lines 192-211). -/
def jsonlParagraphStep (maxB : Nat) (st : List (List Char) × List Char)
    (p : List Char) : List (List Char) × List Char :=
  if utf8Length (st.2 ++ p) > maxB then
    if st.2 ≠ [] then (st.1 ++ [pyStrip st.2], p)
    else (splitDotSpace p).foldl (jsonlSentenceStep maxB) st
  else
    if st.2 ≠ [] then (st.1, st.2 ++ str "\n\n" ++ p) else (st.1, p)

/-- Embeds `JSONLProcessor.chunk_large_text(text, max_chunk_size)`
(src/app/chatbot/jsonl_handler.py, lines 173-216). -/
def chunk_large_text (text : List Char) (max_chunk_size : Nat) : List (List Char) :=
  if utf8Length text ≤ max_chunk_size then [text]
  else
    let st := (splitPar text).foldl (jsonlParagraphStep max_chunk_size) ([], [])
    if st.2 ≠ [] then st.1 ++ [pyStrip st.2] else st.1

/-- Python `\s` (ASCII part), the whitespace class of the regex
`(?<=[.!?])\s+` in `_chunk_text`. -/
def isReSpace (c : Char) : Bool := isPySpace c

/-- Sentence-ending punctuation of the regex `(?<=[.!?])\s+`. -/
def isSentPunct (c : Char) : Bool := c = '.' || c = '!' || c = '?'

/-- Helper for `re.split(r"(?<=[.!?])\s+", s)`: split after a `[.!?]`
character whenever it is followed by whitespace, consuming the maximal
whitespace run.  The first argument is fuel; each step consumes at least
one input character, so fuel `s.length` never runs out. -/
def reSentSplitAux : Nat → List Char → List Char → List (List Char)
  | 0, rest, acc => [acc.reverse ++ rest]
  | _ + 1, [], acc => [acc.reverse]
  | fuel + 1, c :: rest, acc =>
    if isSentPunct c ∧ isReSpace (rest.headD 'x') ∧ rest ≠ [] then
      (acc.reverse ++ [c]) :: reSentSplitAux fuel (rest.dropWhile isReSpace) []
    else
      reSentSplitAux fuel rest (c :: acc)

/-- Python `re.split(r"(?<=[.!?])\s+", s)` (sentence split used by
`_chunk_text` in src/app/chatbot/rag.py, line 316). -/
def reSentSplit (s : List Char) : List (List Char) :=
  reSentSplitAux s.length s []

/-- One step of the sentence loop of `_chunk_text`
(src/app/chatbot/rag.py, lines 317-326); sentences are re-joined with a
single space. -/
def ragSentenceStep (maxB : Nat) (st : List (List Char) × List Char)
    (s : List Char) : List (List Char) × List Char :=
  if utf8Length (st.2 ++ s) > maxB then
    if st.2 ≠ [] then (st.1 ++ [pyStrip st.2], s)
    else (st.1 ++ [s.take maxB], st.2)
  else
    if st.2 ≠ [] then (st.1, st.2 ++ str " " ++ s) else (st.1, s)

/-- One step of the paragraph loop of `_chunk_text`
(src/app/chatbot/rag.py, lines 308-328). -/
def ragParagraphStep (maxB : Nat) (st : List (List Char) × List Char)
    (p : List Char) : List (List Char) × List Char :=
  if utf8Length (st.2 ++ p) > maxB then
    if st.2 ≠ [] then (st.1 ++ [pyStrip st.2], p)
    else (reSentSplit p).foldl (ragSentenceStep maxB) st
  else
    if st.2 ≠ [] then (st.1, st.2 ++ str "\n\n" ++ p) else (st.1, p)

/-- Embeds `_chunk_text(text, chunk_size)` (src/app/chatbot/rag.py,
lines 296-334). -/
def _chunk_text (text : List Char) (chunk_size : Nat) : List (List Char) :=
  let st := (splitPar text).foldl (ragParagraphStep chunk_size) ([], [])
  if st.2 ≠ [] then st.1 ++ [pyStrip st.2] else st.1

/-- Chunk list produced by the module-level `upsert_texts` in
src/app/chatbot/rag.py (lines 231-246): `None` models the early
`return False` on input that is empty after stripping; texts over 50000
UTF-8 bytes are chunked with `_chunk_text(text, 40000)`, smaller texts
are stored as the single chunk `[text]`. -/
def upsert_texts_chunks (text : List Char) : Option (List (List Char)) :=
  if text = [] ∨ pyStrip text = [] then none
  else if utf8Length text > 50000 then some (_chunk_text text 40000)
  else some [text]

/-- One frame sent by `StreamingChatbot.stream_text_response`
(src/app/chatbot/streaming_utils.py, lines 120-130): the JSON payload
`{"type": "stream", "chunk": ..., "is_final": ...}`. -/
structure StreamFrame where
  chunk : List Char
  is_final : Bool
deriving DecidableEq

/-- Loop body of `stream_text_response`: at loop index `i` the remaining
text is `text[i:]`; the fuel argument bounds the iteration count (each
step drops `n ≥ 1` characters, so fuel `text.length` suffices). -/
def streamFramesAux (n : Nat) : Nat → List Char → List StreamFrame
  | 0, _ => []
  | _ + 1, [] => []
  | fuel + 1, l =>
    { chunk := l.take n, is_final := decide (l.length ≤ n) } ::
      streamFramesAux n fuel (l.drop n)

/-- Embeds `StreamingChatbot.stream_text_response(text, chunk_size)`
(src/app/chatbot/streaming_utils.py, lines 120-130): the list of stream
frames emitted for `text`.  `is_final` embeds the Python condition
`i + chunk_size >= len(text)`, i.e. at most `chunk_size` characters
remain.  The caller uses the default `chunk_size = 50`; Python would
raise on `chunk_size = 0`, so theorems assume `0 < n`. -/
def stream_text_response (text : List Char) (n : Nat) : List StreamFrame :=
  streamFramesAux n text.length text

/-- Loop of `event_stream` in the SSE endpoint (src/app/chatbot/views.py,
lines 436-450): `full_response` starts empty; each truthy generator chunk
is appended to `full_response` and emitted as a `{"chunk": ...}` event.
Returns (emitted chunk payloads, accumulated `full_response`). -/
def sseAccumAux : List (List Char) → List Char → List (List Char) × List Char
  | [], acc => ([], acc)
  | c :: rest, acc =>
    if c ≠ [] then
      let r := sseAccumAux rest (acc ++ c)
      (c :: r.1, r.2)
    else sseAccumAux rest acc

/-- The `event_stream` chunk events and terminal `message` field
(src/app/chatbot/views.py, lines 436-450), as a function of the
generator's chunk sequence. -/
def sseEvents (gen : List (List Char)) : List (List Char) × List Char :=
  sseAccumAux gen []

/-- Concatenation of a list of strings (used to state the
reassembly property). -/
def flatten (l : List (List Char)) : List Char := l.foldr (· ++ ·) []

mutual
/-- A Python/JSON value as handled by the JSONL pipeline and intent
classifier: `None`, `str`, `int`, `bool`, nested `dict`, or any other
value (`vother` carries the string `str(value)` would produce and the
value's truthiness). -/
inductive PyVal where
  | vnone : PyVal
  | vstr (s : List Char) : PyVal
  | vint (n : Int) : PyVal
  | vbool (b : Bool) : PyVal
  | vdict (entries : PyEntries) : PyVal
  | vother (reprS : List Char) (truthy : Bool) : PyVal
deriving DecidableEq

/-- Entries of a Python dict, in insertion order with unique keys. -/
inductive PyEntries where
  | nil : PyEntries
  | cons (key : List Char) (val : PyVal) (rest : PyEntries) : PyEntries
deriving DecidableEq
end

/-- Python `dict.get(k)` / `k in dict`: first entry with the given key. -/
def PyEntries.lookup (k : List Char) : PyEntries → Option PyVal
  | .nil => none
  | .cons k' v rest => if k' = k then some v else rest.lookup k

/-- View a dict as an association list (for stating theorems). -/
def PyEntries.toList : PyEntries → List (List Char × PyVal)
  | .nil => []
  | .cons k v rest => (k, v) :: rest.toList

/-- Python truthiness of a value (`bool(v)`). -/
def pyTruthy : PyVal → Bool
  | .vnone => false
  | .vstr s => s ≠ []
  | .vint n => n ≠ 0
  | .vbool b => b
  | .vdict e => e ≠ .nil
  | .vother _ t => t

/-- Decimal digits of a natural number (`str(n)` for `n ≥ 0`). -/
def natChars (n : Nat) : List Char := Nat.toDigits 10 n

/-- Python `str(n)` for an `int`. -/
def intChars (n : Int) : List Char :=
  if n < 0 then '-' :: natChars n.natAbs else natChars n.natAbs

mutual
/-- Python `str(v)`.  The rendering of nested dicts abbreviates
Python's `repr`-based form but is deterministic in the value, which is
all the verified claims depend on. -/
def pyStr : PyVal → List Char
  | .vnone => str "None"
  | .vstr s => s
  | .vint n => intChars n
  | .vbool b => if b then str "True" else str "False"
  | .vdict e => str "\x7b" ++ pyStrEntries e ++ str "\x7d"
  | .vother r _ => r

/-- Comma-separated `key: str(value)` rendering of dict entries. -/
def pyStrEntries : PyEntries → List Char
  | .nil => []
  | .cons k v .nil => k ++ str ": " ++ pyStr v
  | .cons k v rest => k ++ str ": " ++ pyStr v ++ str ", " ++ pyStrEntries rest
end

/-- The closed intent enumeration `valid_intents` of `get_intent`
(src/app/chatbot/agents.py, line 71). -/
def valid_intents : List (List Char) :=
  [str "refund", str "rp", str "ad_booking", str "customer", str "agency",
   str "other"]

/-- The default object `\x7b"intent": "other"\x7d` that
`extract_json_from_string` falls back to. -/
def defaultIntentObj : PyVal :=
  .vdict (.cons (str "intent") (.vstr (str "other")) .nil)

/-- Helper for `re.sub(r"```[a-zA-Z]*", "", response)`: remove every
triple-backtick fence together with the following run of letters.  Fueled
scan; each step consumes at least one character. -/
def removeFencesAux : Nat → List Char → List Char
  | 0, rest => rest
  | _ + 1, [] => []
  | fuel + 1, '`' :: '`' :: '`' :: rest =>
      removeFencesAux fuel (rest.dropWhile fun c => c.isAlpha)
  | fuel + 1, c :: rest => c :: removeFencesAux fuel rest

/-- Python `re.sub(r"```[a-zA-Z]*", "", response)` in `extract_json_from_string`
(src/app/chatbot/agents.py, line 13). -/
def removeFences (s : List Char) : List Char := removeFencesAux s.length s

/-- Helper for `.replace("```", "")`. -/
def removeTripleAux : Nat → List Char → List Char
  | 0, rest => rest
  | _ + 1, [] => []
  | fuel + 1, '`' :: '`' :: '`' :: rest => removeTripleAux fuel rest
  | fuel + 1, c :: rest => c :: removeTripleAux fuel rest

/-- Python `.replace("```", "")` in `extract_json_from_string`
(src/app/chatbot/agents.py, line 13). -/
def removeTriple (s : List Char) : List Char := removeTripleAux s.length s

/-- Embeds `extract_json_from_string(response)` (src/app/chatbot/agents.py,
lines 6-37).  `jsonParse` models `json.loads` (`none` = `JSONDecodeError`)
and `searchParse` models the fallback
`re.search(r'\x7b[^\x7d]*"intent"[^\x7d]*\x7d', response)` followed by
`json.loads` on the match (`none` = no match or inner parse failure); the
claims hold for every behavior of these opaque parsers.  The `ValueError`s
raised on empty input are caught by the function's own
`except Exception` arm, which returns the default intent object. -/
def extract_json_from_string
    (jsonParse searchParse : List Char → Option PyVal)
    (response : List Char) : PyVal :=
  if response = [] ∨ pyStrip response = [] then defaultIntentObj
  else
    let cleaned := pyStrip (removeTriple (removeFences response))
    if cleaned = [] then defaultIntentObj
    else
      match jsonParse cleaned with
      | some v => v
      | none =>
        match searchParse response with
        | some v => v
        | none => defaultIntentObj

/-- Embeds `get_intent(query)` (src/app/chatbot/agents.py, lines 39-80) as a
function of the upstream LLM text: `respOpt = none` models
`get_google_response` raising (caught by the enclosing `except`, which
returns `"other"`).  A non-dict parse result makes
`parsed_response.get` raise `AttributeError`, also caught and mapped to
`"other"`; a missing/non-string/unknown `intent` value maps to
`"other"`. -/
def get_intent (jsonParse searchParse : List Char → Option PyVal)
    (respOpt : Option (List Char)) : List Char :=
  match respOpt with
  | none => str "other"
  | some response =>
    if response = [] ∨ pyStrip response = [] then str "other"
    else
      match extract_json_from_string jsonParse searchParse response with
      | .vdict entries =>
        match (entries.lookup (str "intent")).getD (.vstr (str "other")) with
        | .vstr s => if s ∈ valid_intents then s else str "other"
        | _ => str "other"
      | _ => str "other"

/-- A match returned by the Vector Index query
(`results['matches']` in src/app/chatbot/utils.py / streaming_utils.py).
Metadata is modelled string-valued, which is what the ingestion pipeline
stores for the `text` field. -/
structure QMatch where
  id : List Char
  score : Float
  metadata : List (List Char × List Char)

/-- Association-list lookup for string-valued metadata. -/
def assocLookup (k : List Char) : List (List Char × List Char) → Option (List Char)
  | [] => none
  | (k', v) :: rest => if k' = k then some v else assocLookup k rest

/-- The context-collection loop shared by `Chatbot.rag_response`
(src/app/chatbot/utils.py, lines 146-159) and
`StreamingChatbot.stream_rag_response`
(src/app/chatbot/streaming_utils.py, lines 34-44): matches whose metadata
has a `text` field contribute it; matches without one are dropped. -/
def collectContexts : List QMatch → List (List Char)
  | [] => []
  | m :: rest =>
    match assocLookup (str "text") m.metadata with
    | some t => t :: collectContexts rest
    | none => collectContexts rest

/-- Embeds `Chatbot.rag_response(query)` (src/app/chatbot/utils.py,
lines 122-174) as a function of the index matches; `llm` models the
opaque `rag_agent` text generation.  With no collected context the
function sets `llm_response = None` and returns it: the result is
`none`, not a fallback text. -/
def rag_response (llm : List Char → List (List Char) → List Char)
    (query : List Char) (ms : List QMatch) : Option (List Char) :=
  let ctx := collectContexts ms
  if ctx ≠ [] then some (llm query ctx) else none

/-- The fixed fallback text of `StreamingChatbot.stream_rag_response`
(src/app/chatbot/streaming_utils.py, line 51). -/
def noInfoText : List Char :=
  str "I couldn\x27t find relevant information to answer your question."

/-- Embeds `StreamingChatbot.stream_rag_response(query, websocket)`
(src/app/chatbot/streaming_utils.py, lines 11-58) as a function of the
index matches: with no collected context it returns the fixed fallback
text instead of `None`. -/
def stream_rag_response (llm : List Char → List (List Char) → List Char)
    (query : List Char) (ms : List QMatch) : List Char :=
  let ctx := collectContexts ms
  if ctx ≠ [] then llm query ctx else noInfoText

/-- Error outcomes of `JSONLProcessor.parse_jsonl_file`
(src/app/chatbot/jsonl_handler.py, lines 38-75), both surfaced as
`HTTPException(status_code=400)`: `invalidJson n` carries the 1-based
line number interpolated into `"Invalid JSON on line {n}"`. -/
inductive JsonlError where
  | invalidJson (line : Nat) : JsonlError
  | noValidObjects : JsonlError
deriving DecidableEq

/-- Line loop of `parse_jsonl_file`: lines are numbered from 1 (blank
lines are counted but skipped); the first line whose stripped text fails
to parse raises immediately, aborting the whole file. -/
def parseLines (lineParse : List Char → Option PyVal) :
    Nat → List (List Char) → Except JsonlError (List PyVal)
  | _, [] => .ok []
  | n, l :: rest =>
    let line := pyStrip l
    if line = [] then parseLines lineParse (n + 1) rest
    else
      match lineParse line with
      | some o => (parseLines lineParse (n + 1) rest).map (o :: ·)
      | none => .error (.invalidJson n)

/-- Embeds `JSONLProcessor.parse_jsonl_file(file_content)`
(src/app/chatbot/jsonl_handler.py, lines 38-75) on the decoded text;
`lineParse` models `json.loads` on one line (`none` =
`json.JSONDecodeError`). -/
def parse_jsonl_file (lineParse : List Char → Option PyVal)
    (content : List Char) : Except JsonlError (List PyVal) :=
  match parseLines lineParse 1 (splitNL (pyStrip content)) with
  | .error e => .error e
  | .ok objs => if objs = [] then .error .noValidObjects else .ok objs

/-- 1-based number of the first non-blank line whose stripped text fails
to parse (the line whose number `parse_jsonl_file` reports). -/
def firstBadLine (lineParse : List Char → Option PyVal) :
    Nat → List (List Char) → Option Nat
  | _, [] => none
  | n, l :: rest =>
    let line := pyStrip l
    if line = [] then firstBadLine lineParse (n + 1) rest
    else if (lineParse line).isSome then firstBadLine lineParse (n + 1) rest
    else some n

/-- Python `" | ".join(parts)` as used by the text extraction helpers. -/
def joinBar : List (List Char) → List Char
  | [] => []
  | [p] => p
  | p :: rest => p ++ str " | " ++ joinBar rest

/-- Parts collected by `JSONLProcessor._extract_from_dict`
(src/app/chatbot/jsonl_handler.py, lines 108-118): string values that are
non-blank contribute `"key: value"`; nested dicts contribute their own
joined extraction (without a key prefix) when non-empty. -/
def extractPartsFrom : PyEntries → List (List Char)
  | .nil => []
  | .cons k (.vstr s) rest =>
    (if pyStrip s ≠ [] then [k ++ str ": " ++ s] else []) ++ extractPartsFrom rest
  | .cons _ (.vdict d) rest =>
    (let n := joinBar (extractPartsFrom d)
     if n ≠ [] then [n] else []) ++ extractPartsFrom rest
  | .cons _ _ rest => extractPartsFrom rest

/-- Embeds `JSONLProcessor._extract_from_dict(obj)`
(src/app/chatbot/jsonl_handler.py, lines 108-118). -/
def _extract_from_dict (e : PyEntries) : List Char := joinBar (extractPartsFrom e)

/-- Top-level fallback loop of `extract_text_content`
(src/app/chatbot/jsonl_handler.py, lines 96-104): like
`_extract_from_dict` but nested-dict parts keep the `"key: "` prefix. -/
def topLevelParts : PyEntries → List (List Char)
  | .nil => []
  | .cons k (.vstr s) rest =>
    (if pyStrip s ≠ [] then [k ++ str ": " ++ s] else []) ++ topLevelParts rest
  | .cons k (.vdict d) rest =>
    (let n := _extract_from_dict d
     if n ≠ [] then [k ++ str ": " ++ n] else []) ++ topLevelParts rest
  | .cons _ _ rest => topLevelParts rest

/-- The priority text fields of `extract_text_content`
(src/app/chatbot/jsonl_handler.py, line 88). -/
def textFields : List (List Char) :=
  [str "text", str "content", str "description", str "body", str "summary",
   str "title"]

/-- First priority field present in the object with a truthy value. -/
def firstTextField (obj : PyEntries) : List (List Char) → Option PyVal
  | [] => none
  | f :: rest =>
    match obj.lookup f with
    | some v => if pyTruthy v then some v else firstTextField obj rest
    | none => firstTextField obj rest

/-- Embeds `JSONLProcessor.extract_text_content(json_obj)`
(src/app/chatbot/jsonl_handler.py, lines 77-106). -/
def extract_text_content (obj : PyEntries) : List Char :=
  match firstTextField obj textFields with
  | some v => pyStrip (pyStr v)
  | none => joinBar (topLevelParts obj)

/-- Python dict assignment `d[k] = v` on an association list: replace the
value in place if the key exists, else append. -/
def dictSet (k : List Char) (v : PyVal) :
    List (List Char × PyVal) → List (List Char × PyVal)
  | [] => [(k, v)]
  | (k', v') :: rest =>
    if k' = k then (k, v) :: rest else (k', v') :: dictSet k v rest

/-- Python `json_obj.get(k) or ""` used for the `id`/`url`/`title`/`section`
metadata fields (src/app/chatbot/jsonl_handler.py, lines 138-141). -/
def getOrEmpty (obj : PyEntries) (k : List Char) : PyVal :=
  match obj.lookup k with
  | some v => if pyTruthy v then v else .vstr []
  | none => .vstr []

/-- The extras loop of `create_metadata`
(src/app/chatbot/jsonl_handler.py, lines 145-153): non-null values from
`json_obj["metadata"]` are added, basic types as-is and everything else
as `str(value)`. -/
def addExtras : PyEntries → List (List Char × PyVal) → List (List Char × PyVal)
  | .nil, base => base
  | .cons k v rest, base =>
    addExtras rest (match v with
      | .vnone => base
      | .vstr s => dictSet k (.vstr s) base
      | .vint n => dictSet k (.vint n) base
      | .vbool b => dictSet k (.vbool b) base
      | v' => dictSet k (.vstr (pyStr v')) base)

/-- The site step of `create_metadata`
(src/app/chatbot/jsonl_handler.py, lines 156-163): when `url` is a truthy
string, `urlparse(url).netloc` (modelled by the opaque `netlocOf`) is
stored as `site` if non-empty; a non-string truthy `url` makes `urlparse`
raise, which the bare `except: pass` swallows. -/
def addSite (netlocOf : List Char → List Char) (obj : PyEntries)
    (md : List (List Char × PyVal)) : List (List Char × PyVal) :=
  match obj.lookup (str "url") with
  | some (.vstr s) =>
    if s ≠ [] then
      (let nl := netlocOf s
       if nl ≠ [] then dictSet (str "site") (.vstr nl) md else md)
    else md
  | _ => md

/-- The final null-dropping loop of `create_metadata`
(src/app/chatbot/jsonl_handler.py, lines 166-169). -/
def dropNones (md : List (List Char × PyVal)) : List (List Char × PyVal) :=
  md.filter fun kv => kv.2 ≠ .vnone

/-- Embeds `JSONLProcessor.create_metadata(json_obj, filename, chunk_index)`
(src/app/chatbot/jsonl_handler.py, lines 120-171).  `now` is the value of
`int(time.time())` at the call. -/
def create_metadata (netlocOf : List Char → List Char) (now : Nat)
    (obj : PyEntries) (filename : List Char) (chunk_index : Nat) :
    List (List Char × PyVal) :=
  let base : List (List Char × PyVal) :=
    [(str "source_type", .vstr (str "jsonl")),
     (str "filename", if filename ≠ [] then .vstr filename else .vstr (str "unknown")),
     (str "chunk_index", .vint chunk_index),
     (str "created_at", .vint now),
     (str "id", getOrEmpty obj (str "id")),
     (str "url", getOrEmpty obj (str "url")),
     (str "title", getOrEmpty obj (str "title")),
     (str "section", getOrEmpty obj (str "section"))]
  let withExtras :=
    match obj.lookup (str "metadata") with
    | some (.vdict e) => addExtras e base
    | _ => base
  dropNones (addSite netlocOf obj withExtras)

/-- The 500-character preview stored as `metadata["text"]`, shared by
`upsert_texts` (src/app/chatbot/rag.py, line 261) and
`process_jsonl_batch` (src/app/chatbot/jsonl_handler.py, line 277):
`chunk[:500] + "..." if len(chunk) > 500 else chunk`. -/
def textPreview (chunk : List Char) : List Char :=
  if chunk.length > 500 then chunk.take 500 ++ str "..." else chunk

/-- Pinecone sanitization loop of `process_jsonl_batch`
(src/app/chatbot/jsonl_handler.py, lines 281-285): null values are
deleted and non-basic values replaced by `str(value)`. -/
def sanitizeMetadata : List (List Char × PyVal) → List (List Char × PyVal)
  | [] => []
  | (k, v) :: rest =>
    (match v with
     | .vnone => []
     | .vstr s => [(k, .vstr s)]
     | .vint n => [(k, .vint n)]
     | .vbool b => [(k, .vbool b)]
     | v' => [(k, .vstr (pyStr v'))]) ++ sanitizeMetadata rest

/-- A metadata value acceptable to the Vector Index: Python
`isinstance(value, (str, int, float, bool))` (floats do not occur in the
modelled pipeline). -/
def isBasicVal : PyVal → Bool
  | .vstr _ => true
  | .vint _ => true
  | .vbool _ => true
  | _ => false

/-- Python `json_obj.get("id", f"obj_{batch_start + obj_index}")` rendered into
the id f-string (src/app/chatbot/jsonl_handler.py, line 271). -/
def objIdStr (obj : PyEntries) (globalIndex : Nat) : List Char :=
  match obj.lookup (str "id") with
  | some v => pyStr v
  | none => str "obj_" ++ natChars globalIndex

/-- Embeds `vector_id = f"{obj_id}_chunk_{chunk_index}_{chunk_hash}"`
(src/app/chatbot/jsonl_handler.py, line 273). -/
def jsonlVectorId (objId : List Char) (chunkIndex : Nat)
    (chunkHash : List Char) : List Char :=
  objId ++ str "_chunk_" ++ natChars chunkIndex ++ str "_" ++ chunkHash

/-- Embeds `vector_id = f"doc_{chunk_hash}_{int(time.time())}_{i}"`
(src/app/chatbot/rag.py, lines 254-255): the id of the plain upsert path
embeds the current Unix time. -/
def ragVectorId (chunkHash : List Char) (now : Nat) (i : Nat) : List Char :=
  str "doc_" ++ chunkHash ++ str "_" ++ natChars now ++ str "_" ++ natChars i

/-- One vector prepared for upsert by `process_jsonl_batch`. -/
structure ChunkVector where
  id : List Char
  metadata : List (List Char × PyVal)
  text : List Char
deriving DecidableEq

/-- The per-object body of `process_jsonl_batch`
(src/app/chatbot/jsonl_handler.py, lines 254-289): extract the text,
chunk it with the default `max_chunk_size = 40000`, and build
`(vector_id, metadata, chunk_text)` for each chunk.  `md5hex8` models
`hashlib.md5(chunk).hexdigest()[:8]`, `netlocOf` models
`urlparse(...).netloc`, `now` the ambient `int(time.time())`, and
`globalIndex` the running `batch_start + obj_index`.  Objects whose
extracted text is blank are counted failed and contribute nothing. -/
def processObjectVectors (md5hex8 netlocOf : List Char → List Char)
    (now : Nat) (filename : List Char) (globalIndex : Nat)
    (obj : PyEntries) : List ChunkVector :=
  let text := extract_text_content obj
  if pyStrip text = [] then []
  else
    let chunks := chunk_large_text text 40000
    chunks.enum.map fun p =>
      { id := jsonlVectorId (objIdStr obj globalIndex) p.1 (md5hex8 p.2)
        metadata := sanitizeMetadata
          (dictSet (str "total_chunks") (.vint chunks.length)
            (dictSet (str "text") (.vstr (textPreview p.2))
              (create_metadata netlocOf now obj filename p.1)))
        text := p.2 }

/-- Modelled from the claim's wording for C10: the consecutive
`n`-character slices of a text, `⌈len/n⌉` of them, the `i`-th being
`text[n*i : n*i+n]`. -/
def specSlices (text : List Char) (n : Nat) : List (List Char) :=
  (List.range ((text.length + n - 1) / n)).map fun i => (text.drop (n * i)).take n

/-! ## Helper lemmas -/

theorem utf8Length_eq_length_of_ascii {s : List Char}
    (h : ∀ c ∈ s, c.utf8Size = 1) : utf8Length s = s.length := by
  induction s with
  | nil => rfl
  | cons c t ih =>
    have hc : c.utf8Size = 1 := h c (List.mem_cons_self c t)
    have ht : ∀ c ∈ t, c.utf8Size = 1 := fun x hx => h x (List.mem_cons_of_mem c hx)
    unfold utf8Length at *
    rw [List.map_cons, List.sum_cons, hc, ih ht, List.length_cons]
    omega

theorem flatten_nil : flatten [] = [] := rfl

theorem flatten_cons (c : List Char) (l : List (List Char)) :
    flatten (c :: l) = c ++ flatten l := rfl

/-! ## C1 -/

/-- C1: REFUTED as stated.  `chunk_large_text` (and `_chunk_text`, same
structure) can emit a chunk whose UTF-8 length exceeds `max_bytes` even
though none of its sentences does: a paragraph that becomes the carry
after a flush is emitted whole without sentence-splitting.  On input
`"aa\n\nbbbb. bbbbbb\n\ncc"` with `max_bytes = 10`, the middle chunk is
the 12-byte paragraph `"bbbb. bbbbbb"`, which is neither within the
10-byte bound nor a sentence hard-truncated to exactly 10 bytes (both its
sentences are within the bound). -/
theorem C1_counterexample :
    chunk_large_text (str "aa\n\nbbbb. bbbbbb\n\ncc") 10 =
      [str "aa", str "bbbb. bbbbbb", str "cc"] ∧
    _chunk_text (str "aa\n\nbbbb. bbbbbb\n\ncc") 10 =
      [str "aa", str "bbbb. bbbbbb", str "cc"] ∧
    utf8Length (str "bbbb. bbbbbb") = 12 ∧
    (splitDotSpace (str "bbbb. bbbbbb")).all (fun s => utf8Length s ≤ 10) = true := by
  decide

/-- C1 (amended): the boundary part of the claim holds for ASCII input:
a text that is a single paragraph and a single sentence under the code's
splitters, made of 1-byte (ASCII) characters, with UTF-8 length exactly
`2 * max_bytes`, is hard-truncated to a single chunk of exactly
`max_bytes` bytes (`max_bytes` characters). -/
theorem C1_theorem (s : List Char) (m : Nat) (hm : 0 < m)
    (hascii : ∀ c ∈ s, c.utf8Size = 1)
    (hpar : splitPar s = [s]) (hsent : splitDotSpace s = [s])
    (hlen : utf8Length s = 2 * m) :
    chunk_large_text s m = [s.take m] ∧ utf8Length (s.take m) = m := by
  have hchars : s.length = 2 * m := by
    rw [← utf8Length_eq_length_of_ascii hascii]; exact hlen
  have hgt : ¬ utf8Length s ≤ m := by omega
  have htake : utf8Length (s.take m) = m := by
    have hsub : ∀ c ∈ s.take m, c.utf8Size = 1 := fun c hc =>
      hascii c (List.take_subset m s hc)
    rw [utf8Length_eq_length_of_ascii hsub, List.length_take]
    omega
  have hbig : m < utf8Length s := by omega
  refine ⟨?_, htake⟩
  unfold chunk_large_text jsonlParagraphStep jsonlSentenceStep
  rw [hpar]
  simp only [List.foldl_cons, List.foldl_nil, List.nil_append]
  rw [hsent]
  simp only [List.foldl_cons, List.foldl_nil, List.nil_append]
  simp [hgt, hbig]

/-- Witness for C1: 20 ASCII bytes with `max_bytes = 10` give one chunk
of exactly 10 bytes. -/
theorem C1_witness :
    chunk_large_text (List.replicate 20 'b') 10 = [(List.replicate 20 'b').take 10] ∧
    utf8Length ((List.replicate 20 'b').take 10) = 10 :=
  C1_theorem (List.replicate 20 'b') 10 (by decide) (by decide) (by decide)
    (by decide) (by decide)

/-! ## C2 -/

/-- C2: REFUTED as stated.  When the vector index returns zero matches,
the non-streaming path `Chatbot.rag_response` leaves `llm_response =
None` and returns it: the caller receives `none`, not non-empty text
stating that nothing was found. -/
theorem C2_counterexample :
    rag_response (fun _ _ => str "") (str "hello") [] = none := by decide

/-- C2 (amended): when no context passages are collected, the streaming
path returns the fixed non-empty fallback text while the non-streaming
`rag_response` returns `None`. -/
theorem C2_theorem (llm : List Char → List (List Char) → List Char)
    (query : List Char) (ms : List QMatch)
    (h : collectContexts ms = []) :
    stream_rag_response llm query ms = noInfoText ∧
    noInfoText ≠ [] ∧
    rag_response llm query ms = none := by
  unfold stream_rag_response rag_response
  rw [h]
  exact ⟨by simp, by decide, by simp⟩

/-- Witness for C2 at the empty match list. -/
theorem C2_witness :
    stream_rag_response (fun _ _ => str "") (str "hi") [] = noInfoText ∧
    noInfoText ≠ [] ∧
    rag_response (fun _ _ => str "") (str "hi") [] = none :=
  C2_theorem (fun _ _ => str "") (str "hi") [] (by decide)

/-! ## C6 -/

/-- C6: REFUTED as stated.  A text within the chunking threshold is
returned as a single chunk equal to the input as-is, not to the trimmed
input: with leading whitespace the chunk keeps it. -/
theorem C6_counterexample :
    upsert_texts_chunks (str " a. b. c.") = some [str " a. b. c."] ∧
    chunk_large_text (str " a. b. c.") 40000 = [str " a. b. c."] ∧
    pyStrip (str " a. b. c.") ≠ str " a. b. c." := by decide

/-- C6 (amended): a non-empty text within the chunking threshold yields
exactly one chunk equal to the input text itself (hence equal to the
trimmed input whenever the input carries no surrounding whitespace, as
in `"a. b. c."`). -/
theorem C6_theorem (text : List Char) (m : Nat)
    (h1 : pyStrip text ≠ []) (h2 : utf8Length text ≤ 50000)
    (h3 : utf8Length text ≤ m) :
    upsert_texts_chunks text = some [text] ∧
    chunk_large_text text m = [text] := by
  have hne : ¬ (text = [] ∨ pyStrip text = []) := by
    rintro (rfl | h)
    · exact h1 rfl
    · exact h1 h
  constructor
  · unfold upsert_texts_chunks
    rw [if_neg hne, if_neg (by omega)]
  · unfold chunk_large_text
    rw [if_pos h3]

/-- Witness for C6 at the spec's round-trip example `"a. b. c."`. -/
theorem C6_witness :
    upsert_texts_chunks (str "a. b. c.") = some [str "a. b. c."] ∧
    chunk_large_text (str "a. b. c.") 100 = [str "a. b. c."] :=
  C6_theorem (str "a. b. c.") 100 (by decide) (by decide) (by decide)

/-! ## C3 -/

theorem extract_json_default (jsonParse searchParse : List Char → Option PyVal)
    (response : List Char)
    (hj : jsonParse (pyStrip (removeTriple (removeFences response))) = none)
    (hs : searchParse response = none) :
    extract_json_from_string jsonParse searchParse response = defaultIntentObj := by
  unfold extract_json_from_string
  split
  · rfl
  · dsimp only
    split
    · rfl
    · rw [hj, hs]

theorem get_intent_of_default (jsonParse searchParse : List Char → Option PyVal)
    (response : List Char)
    (hex : extract_json_from_string jsonParse searchParse response =
      defaultIntentObj) :
    get_intent jsonParse searchParse (some response) = str "other" := by
  unfold get_intent
  dsimp only
  by_cases hb : (response = [] ∨ pyStrip response = [])
  · rw [if_pos hb]
  · rw [if_neg hb, hex]
    rfl

/-- C3: CONFIRMED.  Whatever the upstream LLM text (including a raised
exception, modelled as `none`) and whatever `json.loads` / the regex
fallback return (universally quantified oracles), `get_intent` returns
one of the six intent literals and never an empty string; moreover every
failure path deterministically yields the literal `"other"`: when the
upstream call raises, when its output is empty or blank, when both the
JSON parse and the regex fallback fail (malformed JSON), when the parse
result is not a dict, when the parsed `intent` value is a string outside
the six-element enumeration, and when it is not a string at all. -/
theorem C3_theorem (jsonParse searchParse : List Char → Option PyVal)
    (respOpt : Option (List Char)) :
    (get_intent jsonParse searchParse respOpt ∈ valid_intents ∧
      get_intent jsonParse searchParse respOpt ≠ []) ∧
    (respOpt = none → get_intent jsonParse searchParse respOpt = str "other") ∧
    (∀ response, respOpt = some response →
      (response = [] ∨ pyStrip response = []) →
      get_intent jsonParse searchParse respOpt = str "other") ∧
    (∀ response, respOpt = some response →
      jsonParse (pyStrip (removeTriple (removeFences response))) = none →
      searchParse response = none →
      get_intent jsonParse searchParse respOpt = str "other") ∧
    (∀ response entries s, respOpt = some response →
      extract_json_from_string jsonParse searchParse response = .vdict entries →
      (entries.lookup (str "intent")).getD (.vstr (str "other")) = .vstr s →
      s ∉ valid_intents →
      get_intent jsonParse searchParse respOpt = str "other") ∧
    (∀ response, respOpt = some response →
      (∀ entries,
        extract_json_from_string jsonParse searchParse response ≠ .vdict entries) →
      get_intent jsonParse searchParse respOpt = str "other") ∧
    (∀ response entries, respOpt = some response →
      extract_json_from_string jsonParse searchParse response = .vdict entries →
      (∀ s',
        (entries.lookup (str "intent")).getD (.vstr (str "other")) ≠ .vstr s') →
      get_intent jsonParse searchParse respOpt = str "other") := by
  refine ⟨?_, ?_, ?_, ?_, ?_, ?_, ?_⟩
  · have hother : (str "other") ∈ valid_intents ∧ (str "other") ≠ ([] : List Char) :=
      by decide
    have hne : ∀ x ∈ valid_intents, x ≠ ([] : List Char) := by decide
    cases respOpt with
    | none => exact hother
    | some response =>
      simp only [get_intent]
      split
      · exact hother
      · split
        · rename_i entries heq
          split
          · rename_i s hs
            split
            · rename_i hmem
              exact ⟨hmem, hne s hmem⟩
            · exact hother
          · exact hother
        · exact hother
  · intro h
    subst h
    rfl
  · intro response hro hb
    subst hro
    unfold get_intent
    dsimp only
    rw [if_pos hb]
  · intro response hro hj hs
    subst hro
    exact get_intent_of_default jsonParse searchParse response
      (extract_json_default jsonParse searchParse response hj hs)
  · intro response entries s hro hex hlook hmem
    subst hro
    unfold get_intent
    dsimp only
    by_cases hb : (response = [] ∨ pyStrip response = [])
    · rw [if_pos hb]
    · rw [if_neg hb, hex]
      dsimp only
      rw [hlook]
      dsimp only
      rw [if_neg hmem]
  · intro response hro hne'
    subst hro
    unfold get_intent
    dsimp only
    by_cases hb : (response = [] ∨ pyStrip response = [])
    · rw [if_pos hb]
    · rw [if_neg hb]
      cases hv : extract_json_from_string jsonParse searchParse response with
      | vdict entries => exact absurd hv (hne' entries)
      | vnone => rfl
      | vstr s => rfl
      | vint n => rfl
      | vbool b => rfl
      | vother r t => rfl
  · intro response entries hro hex hns
    subst hro
    unfold get_intent
    dsimp only
    by_cases hb : (response = [] ∨ pyStrip response = [])
    · rw [if_pos hb]
    · rw [if_neg hb, hex]
      dsimp only
      cases hl : (entries.lookup (str "intent")).getD (.vstr (str "other")) with
      | vstr s => exact absurd hl (hns s)
      | vnone => rfl
      | vint n => rfl
      | vbool b => rfl
      | vdict e => rfl
      | vother r t => rfl

/-- Witness for C3: with both parsers failing (constant `none` oracles),
the non-JSON upstream text `"garbage"` maps to the literal `"other"`, as
does a raised upstream call. -/
theorem C3_witness :
    get_intent (fun _ => none) (fun _ => none) (some (str "garbage")) =
      str "other" ∧
    get_intent (fun _ => none) (fun _ => none) none = str "other" :=
  ⟨(C3_theorem (fun _ => none) (fun _ => none)
      (some (str "garbage"))).2.2.2.1 (str "garbage") rfl rfl rfl,
   (C3_theorem (fun _ => none) (fun _ => none) none).2.1 rfl⟩

/-! ## C4 -/

theorem streamFrames_concat (n : Nat) (hn : 0 < n) :
    ∀ fuel l, l.length ≤ fuel →
      flatten ((streamFramesAux n fuel l).map StreamFrame.chunk) = l := by
  intro fuel
  induction fuel with
  | zero =>
    intro l hl
    have : l = [] := List.length_eq_zero.mp (Nat.le_zero.mp hl)
    subst this; rfl
  | succ fuel ih =>
    intro l hl
    match l with
    | [] => rfl
    | c :: t =>
      have hdl : ((c :: t).drop n).length ≤ fuel := by
        simp only [List.length_drop, List.length_cons] at *
        omega
      show flatten (((c :: t).take n) :: _) = c :: t
      rw [flatten_cons, ih ((c :: t).drop n) hdl]
      exact List.take_append_drop n (c :: t)

theorem sseAccum_snd (gen : List (List Char)) :
    ∀ acc, (sseAccumAux gen acc).2 = acc ++ flatten (sseAccumAux gen acc).1 := by
  induction gen with
  | nil => intro acc; simp [sseAccumAux, flatten]
  | cons c rest ih =>
    intro acc
    unfold sseAccumAux
    split
    · rw [flatten_cons]
      rw [ih (acc ++ c)]
      simp
    · exact ih acc

/-- C4: CONFIRMED.  On the WebSocket transport, concatenating the
`chunk` payloads of the frames emitted by `stream_text_response` (in
emission order) reproduces exactly the text carried as `message` in the
terminal complete envelope; on the SSE transport, the terminal
`message` is exactly the concatenation of the emitted `chunk`
payloads. -/
theorem C4_theorem (text : List Char) (n : Nat) (hn : 0 < n)
    (gen : List (List Char)) :
    flatten ((stream_text_response text n).map StreamFrame.chunk) = text ∧
    flatten (sseEvents gen).1 = (sseEvents gen).2 := by
  constructor
  · exact streamFrames_concat n hn text.length text le_rfl
  · rw [sseEvents, sseAccum_snd gen []]
    simp

/-- Witness for C4 at a concrete text and generator sequence. -/
theorem C4_witness :
    flatten ((stream_text_response (str "hello world") 50).map StreamFrame.chunk) =
      str "hello world" ∧
    flatten (sseEvents [str "a", [], str "bc"]).1 =
      (sseEvents [str "a", [], str "bc"]).2 :=
  C4_theorem (str "hello world") 50 (by decide) [str "a", [], str "bc"]

/-! ## C10 -/

theorem streamFrames_nil_iff (n : Nat) :
    ∀ fuel l, l.length ≤ fuel → (streamFramesAux n fuel l = [] ↔ l = []) := by
  intro fuel
  induction fuel with
  | zero =>
    intro l hl
    have : l = [] := List.length_eq_zero.mp (Nat.le_zero.mp hl)
    subst this; simp [streamFramesAux]
  | succ fuel _ =>
    intro l _
    match l with
    | [] => simp [streamFramesAux]
    | c :: t => simp [streamFramesAux]

theorem specSlices_step (n : Nat) (hn : 0 < n) (l : List Char) (hne : l ≠ []) :
    specSlices l n = l.take n :: specSlices (l.drop n) n := by
  have hlen : 1 ≤ l.length := List.length_pos.mpr hne
  have hcount : (l.length + n - 1) / n = ((l.drop n).length + n - 1) / n + 1 := by
    rw [List.length_drop]
    rcases Nat.le_total l.length n with hle | hge
    · have e1 : l.length + n - 1 = (l.length - 1) + n := by omega
      have e2 : l.length - n = 0 := by omega
      rw [e1, e2, Nat.add_div_right _ hn]
      have e3 : (l.length - 1) / n = 0 := Nat.div_eq_of_lt (by omega)
      have e4 : (0 + n - 1) / n = 0 := Nat.div_eq_of_lt (by omega)
      omega
    · have e1 : l.length + n - 1 = (l.length - n + n - 1) + n := by omega
      rw [e1, Nat.add_div_right _ hn]
  unfold specSlices
  rw [hcount, List.range_succ_eq_map, List.map_cons, List.map_map]
  refine List.cons_eq_cons.mpr ⟨by simp, ?_⟩
  apply List.map_congr_left
  intro a _
  simp only [Function.comp_apply]
  rw [List.drop_drop]
  have h : n * Nat.succ a = n + n * a := by rw [Nat.succ_eq_add_one]; ring
  rw [h]

theorem streamFrames_chunks (n : Nat) (hn : 0 < n) :
    ∀ fuel l, l.length ≤ fuel →
      (streamFramesAux n fuel l).map StreamFrame.chunk = specSlices l n := by
  intro fuel
  induction fuel with
  | zero =>
    intro l hl
    have : l = [] := List.length_eq_zero.mp (Nat.le_zero.mp hl)
    subst this
    have h0 : (n - 1) / n = 0 := Nat.div_eq_of_lt (by omega)
    simp [streamFramesAux, specSlices, h0]
  | succ fuel ih =>
    intro l hl
    match l with
    | [] =>
      have h0 : (n - 1) / n = 0 := Nat.div_eq_of_lt (by omega)
      simp [streamFramesAux, specSlices, h0]
    | c :: t =>
      have hdl : ((c :: t).drop n).length ≤ fuel := by
        simp only [List.length_drop, List.length_cons] at *
        omega
      show ((c :: t).take n) :: ((streamFramesAux n fuel ((c :: t).drop n)).map
          StreamFrame.chunk) = specSlices (c :: t) n
      rw [ih ((c :: t).drop n) hdl,
        specSlices_step n hn (c :: t) (List.cons_ne_nil c t)]

theorem streamFrames_is_final (n : Nat) (hn : 0 < n) :
    ∀ fuel l, l.length ≤ fuel →
      ∀ i (h : i < (streamFramesAux n fuel l).length),
        ((streamFramesAux n fuel l).get ⟨i, h⟩).is_final =
          decide (i = (streamFramesAux n fuel l).length - 1) := by
  intro fuel
  induction fuel with
  | zero =>
    intro l hl i h
    have : l = [] := List.length_eq_zero.mp (Nat.le_zero.mp hl)
    subst this
    simp [streamFramesAux] at h
  | succ fuel ih =>
    intro l hl i h
    match l with
    | [] => simp [streamFramesAux] at h
    | c :: t =>
      have hdl : ((c :: t).drop n).length ≤ fuel := by
        simp only [List.length_drop, List.length_cons] at *
        omega
      match i with
      | 0 =>
        have hrest : streamFramesAux n fuel ((c :: t).drop n) = [] ↔
            (c :: t).drop n = [] := streamFrames_nil_iff n fuel _ hdl
        have hdrop : (c :: t).drop n = [] ↔ (c :: t).length ≤ n :=
          List.drop_eq_nil_iff
        show decide ((c :: t).length ≤ n) =
          decide (0 = (streamFramesAux n fuel ((c :: t).drop n)).length + 1 - 1)
        rw [decide_eq_decide, Nat.add_sub_cancel, eq_comm, List.length_eq_zero,
          hrest, hdrop]
      | i + 1 =>
        have h2 := h
        simp only [streamFramesAux, List.length_cons] at h2
        have h3 : i < (streamFramesAux n fuel ((c :: t).drop n)).length := by
          omega
        show ((streamFramesAux n fuel ((c :: t).drop n)).get ⟨i, h3⟩).is_final =
          decide (i + 1 = (streamFramesAux n fuel ((c :: t).drop n)).length + 1 - 1)
        rw [ih ((c :: t).drop n) hdl i h3, decide_eq_decide]
        omega

/-- C10: CONFIRMED.  With the default `chunk_size = 50`,
`stream_text_response` emits exactly the consecutive 50-character slices
of the text in order, marks a frame `is_final` exactly when it is the
last emitted frame, and emits no frames at all for the empty text. -/
theorem C10_theorem (text : List Char) (i : Nat)
    (h : i < (stream_text_response text 50).length) :
    stream_text_response [] 50 = [] ∧
    (stream_text_response text 50).map StreamFrame.chunk = specSlices text 50 ∧
    ((stream_text_response text 50).get ⟨i, h⟩).is_final =
      decide (i = (stream_text_response text 50).length - 1) := by
  refine ⟨rfl, ?_, ?_⟩
  · exact streamFrames_chunks 50 (by omega) text.length text le_rfl
  · exact streamFrames_is_final 50 (by omega) text.length text le_rfl i h

/-- Witness for C10 on a 60-character text (two frames; the second is
final). -/
theorem C10_witness :
    stream_text_response [] 50 = [] ∧
    (stream_text_response (List.replicate 60 'a') 50).map StreamFrame.chunk =
      specSlices (List.replicate 60 'a') 50 ∧
    ((stream_text_response (List.replicate 60 'a') 50).get ⟨1, by decide⟩).is_final =
      decide (1 = (stream_text_response (List.replicate 60 'a') 50).length - 1) :=
  C10_theorem (List.replicate 60 'a') 1 (by decide)

/-! ## C5 -/

/-- C5: REFUTED as stated.  `parse_jsonl_file` raises on the first
malformed line, aborting the whole batch: with valid JSON on lines 1 and
3 and a malformed line 2, the result is the HTTP 400 error for line 2
and the valid lines are not processed. -/
theorem C5_counterexample :
    parse_jsonl_file
      (fun l => if l = str "\x7b\x7d" then some (.vdict .nil) else none)
      (str "\x7b\x7d\nnotjson\n\x7b\x7d") = .error (.invalidJson 2) := by
  rfl

theorem parseLines_error_of_firstBad (lineParse : List Char → Option PyVal) :
    ∀ lines k n, firstBadLine lineParse k lines = some n →
      parseLines lineParse k lines = .error (.invalidJson n) := by
  intro lines
  induction lines with
  | nil => intro k n h; simp [firstBadLine] at h
  | cons l rest ih =>
    intro k n h
    unfold firstBadLine at h
    unfold parseLines
    dsimp only at h ⊢
    split
    · rename_i hblank
      rw [if_pos hblank] at h
      exact ih (k + 1) n h
    · rename_i hne
      rw [if_neg hne] at h
      cases hp : lineParse (pyStrip l) with
      | some o =>
        rw [hp] at h
        simp only [Option.isSome_some, if_true] at h
        show Except.map _ (parseLines lineParse (k + 1) rest) =
          Except.error (JsonlError.invalidJson n)
        rw [ih (k + 1) n h]
        rfl
      | none =>
        rw [hp] at h
        simp only [Option.isSome_none, Bool.false_eq_true, if_false] at h
        rw [Option.some_inj] at h
        rw [h]

/-- C5 (amended): a malformed non-blank line does not fail only that
line; it aborts the entire batch: `parse_jsonl_file` returns the
HTTP 400 `invalidJson` error carrying the 1-based number of the first
malformed line, and no objects (including valid later lines) are
returned.  A file with zero valid objects is likewise rejected. -/
theorem C5_theorem (lineParse : List Char → Option PyVal)
    (content : List Char) (n : Nat)
    (h : firstBadLine lineParse 1 (splitNL (pyStrip content)) = some n) :
    parse_jsonl_file lineParse content = .error (.invalidJson n) := by
  unfold parse_jsonl_file
  rw [parseLines_error_of_firstBad lineParse _ 1 n h]

/-- Witness for C5: a valid line followed by a malformed line 2. -/
theorem C5_witness :
    parse_jsonl_file (fun l => if l = str "ok" then some .vnone else none)
      (str "ok\nbad") = .error (.invalidJson 2) :=
  C5_theorem (fun l => if l = str "ok" then some .vnone else none)
    (str "ok\nbad") 2 (by decide)

/-! ## C7 -/

/-- C7: REFUTED as stated.  On the plain upsert path
(src/app/chatbot/rag.py) the vector id embeds `int(time.time())`: the
same chunk content at the same position gets different ids in two runs
one second apart, so re-ingestion is not idempotent there. -/
theorem C7_counterexample :
    ragVectorId (str "0a1b2c3d") 1700000000 0 ≠
      ragVectorId (str "0a1b2c3d") 1700000001 0 := by decide

/-- C7 (amended): on the JSONL ingestion path the vector ids are
deterministic in the object content, its id, the chunk index, and the
content hash: two runs of `process_jsonl_batch` over the same object at
different times (`now` enters only the `created_at` metadata) produce
identical id lists.  The plain `upsert_texts` path is the exception
refuted above. -/
theorem C7_theorem (md5hex8 netlocOf : List Char → List Char)
    (now now' : Nat) (filename : List Char) (gi : Nat) (obj : PyEntries) :
    (processObjectVectors md5hex8 netlocOf now filename gi obj).map ChunkVector.id =
      (processObjectVectors md5hex8 netlocOf now' filename gi obj).map
        ChunkVector.id := by
  unfold processObjectVectors
  dsimp only
  split
  · rfl
  · rw [List.map_map, List.map_map]
    apply List.map_congr_left
    intro p _
    rfl

/-! ## C8 -/

set_option maxRecDepth 10000 in
/-- C8: REFUTED as stated.  For a chunk longer than 500 characters the
stored preview is the 500-character prefix plus `"..."`: 503 characters,
which exceeds the claimed 500-character bound. -/
theorem C8_counterexample :
    (textPreview (List.replicate 501 'a')).length = 503 ∧
    500 < (textPreview (List.replicate 501 'a')).length := by decide

/-- C8 (amended): the stored `metadata.text` preview equals the chunk
whenever the chunk is at most 500 characters, and is never longer than
503 characters (500 characters of the chunk plus the three-character
ellipsis). -/
theorem C8_theorem (chunk : List Char) :
    (textPreview chunk).length ≤ 503 ∧
    (chunk.length ≤ 500 → textPreview chunk = chunk) := by
  constructor
  · unfold textPreview
    split
    · rename_i hgt
      rw [List.length_append, List.length_take]
      have : (str "...").length = 3 := by decide
      omega
    · rename_i hle
      omega
  · intro hle
    unfold textPreview
    rw [if_neg (by omega)]

/-- Witness for C8 on a short chunk. -/
theorem C8_witness :
    (textPreview (str "hi")).length ≤ 503 ∧ textPreview (str "hi") = str "hi" :=
  ⟨(C8_theorem (str "hi")).1, (C8_theorem (str "hi")).2 (by decide)⟩

/-! ## C9 -/

theorem sanitizeMetadata_basic :
    ∀ (md : List (List Char × PyVal)) (k : List Char) (v : PyVal),
      (k, v) ∈ sanitizeMetadata md → isBasicVal v = true := by
  intro md
  induction md with
  | nil => intro k v h; simp [sanitizeMetadata] at h
  | cons kv rest ih =>
    intro k v h
    unfold sanitizeMetadata at h
    rcases List.mem_append.mp h with h1 | h2
    · match kv with
      | (k', v') =>
        cases v' <;> simp_all [isBasicVal]
    · exact ih k v h2

/-- C9: CONFIRMED.  Every metadata dictionary handed to the Vector Index
upsert by `process_jsonl_batch` contains no `None` values, and every
remaining value is a string, int, or bool (the basic types the
sanitization loop admits): null-valued keys are dropped and non-basic
values stringified before the upsert call. -/
theorem C9_theorem (md5hex8 netlocOf : List Char → List Char) (now : Nat)
    (filename : List Char) (gi : Nat) (obj : PyEntries) (cv : ChunkVector)
    (hcv : cv ∈ processObjectVectors md5hex8 netlocOf now filename gi obj)
    (k : List Char) (v : PyVal) (hkv : (k, v) ∈ cv.metadata) :
    v ≠ .vnone ∧ isBasicVal v = true := by
  have hbasic : isBasicVal v = true := by
    unfold processObjectVectors at hcv
    dsimp only at hcv
    split at hcv
    · simp at hcv
    · rcases List.mem_map.mp hcv with ⟨p, _, hp⟩
      subst hp
      exact sanitizeMetadata_basic _ k v hkv
  refine ⟨?_, hbasic⟩
  intro hv
  subst hv
  simp [isBasicVal] at hbasic

/-- Witness for C9 on a one-field object: the first metadata entry of
the single produced vector is the basic string value `"jsonl"`. -/
theorem C9_witness :
    (PyVal.vstr (str "jsonl")) ≠ PyVal.vnone ∧
    isBasicVal (PyVal.vstr (str "jsonl")) = true :=
  C9_theorem (fun _ => str "h8") (fun _ => []) 5 (str "f.jsonl") 0
    (.cons (str "text") (.vstr (str "hi")) .nil)
    { id := str "obj_0_chunk_0_h8"
      metadata :=
        [(str "source_type", .vstr (str "jsonl")),
         (str "filename", .vstr (str "f.jsonl")),
         (str "chunk_index", .vint 0),
         (str "created_at", .vint 5),
         (str "id", .vstr []),
         (str "url", .vstr []),
         (str "title", .vstr []),
         (str "section", .vstr []),
         (str "text", .vstr (str "hi")),
         (str "total_chunks", .vint 1)]
      text := str "hi" }
    (by decide) (str "source_type") (.vstr (str "jsonl")) (by decide)

end RagSpec
